import Mathlib

/-!
Shallow embedding of the arbitrage bot core (src/main.rs of
vitordhers/arbitrage_bot) and proofs about its fee schedule, arbitrage
evaluator, execution legs and ledger settlement.

Modelling conventions:
- Rust f64 values are modelled as exact rationals (ℚ). Every comparison and
  arithmetic fact proved below involves numbers and operations that behave
  identically under f64 and exact rational arithmetic at the inputs used.
- Vec::first is List.head?.
- The Rust match with an unreachable!() fallthrough in get_mb_fee_rate is
  modelled as an Option, where none is the fatal fallthrough arm.
- reqwest::Error is opaque to this core; it is modelled as a one-constructor
  inductive so that error values exist.
- HashMap<Currency, f64> is modelled as a total function Currency → ℚ: the
  program initializes every currency key in get_default_balance and only ever
  overwrites existing keys, so every reachable map contains all keys and the
  .get(..).unwrap() calls never fail.
- The tokio sleep calls in the four leg stubs are real-time effects with no
  observable value; each leg returns Ok(()) exactly as in the source.
-/

namespace ArbBot

/-- Currency enum from src/main.rs. -/
inductive Currency where
  | BRL
  | BTC
  | USDT
  | ETH
deriving DecidableEq, Repr

/-- Symbol enum from src/main.rs (default is BTCBRL). -/
inductive Symbol where
  | BTCBRL
  | USDTBRL
  | ETHBRL
deriving DecidableEq, Repr

/-- struct Data from src/main.rs: one order-book level (field order qty, price
as in the source). -/
structure Data where
  qty : ℚ
  price : ℚ
deriving DecidableEq, Repr

/-- struct OrderBook from src/main.rs. -/
structure OrderBook where
  bids : List Data
  asks : List Data
deriving DecidableEq, Repr

/-- const BINANCE_FEE_RATE from src/main.rs. -/
def BINANCE_FEE_RATE : ℚ := 0.001

/-- get_mb_fee_rate from src/main.rs, arms in source order with the literal
thresholds of the source (note 10_000_00.0 is 1000000.0, 20_000_00.0 is
2000000.0, and so on). The unreachable fallthrough arm is none. -/
def get_mb_fee_rate (price : ℚ) (qty : ℚ) : Option ℚ :=
  let deal_total := price * qty
  if deal_total ≤ 500000 then some 0.007
  else if 500000 < deal_total ∧ deal_total ≤ 1000000 then some 0.006
  else if 10000000 < deal_total ∧ deal_total ≤ 2000000 then some 0.005
  else if 20000000 < deal_total ∧ deal_total ≤ 5000000 then some 0.0045
  else if 50000000 < deal_total ∧ deal_total ≤ 10000000 then some 0.004
  else if 100000000 < deal_total ∧ deal_total ≤ 20000000 then some 0.003
  else if 200000000 < deal_total then some 0.0025
  else none

/-- enum TradeAction from src/main.rs, with its two payload-carrying
variants. -/
inductive TradeAction where
  | ShortBinance (ask_price : ℚ) (bid_price : ℚ) (qty : ℚ) (symbol : Symbol)
      (costs : ℚ)
  | ShortMb (ask_price : ℚ) (bid_price : ℚ) (qty : ℚ) (symbol : Symbol)
      (costs : ℚ)
deriving DecidableEq, Repr

/-- The qty field of a TradeAction. -/
def TradeAction.qty : TradeAction → ℚ
  | .ShortBinance _ _ q _ _ => q
  | .ShortMb _ _ q _ _ => q

/-- The costs field of a TradeAction. -/
def TradeAction.costs : TradeAction → ℚ
  | .ShortBinance _ _ _ _ c => c
  | .ShortMb _ _ _ _ c => c

/-- The symbol field of a TradeAction. -/
def TradeAction.symbol : TradeAction → Symbol
  | .ShortBinance _ _ _ s _ => s
  | .ShortMb _ _ _ s _ => s

/-- The fatal outcome of reaching the unreachable fee-tier arm. -/
inductive Fatal where
  | feeTierGap
deriving DecidableEq, Repr

/-- check_arbitrage from src/main.rs. The four early returns through the ?
operator on first() become the catch-all arm returning ok none; reaching the
unreachable fee-tier arm is the Fatal error. All let names follow the
source. -/
def check_arbitrage (binance_order_book : OrderBook) (mb_order_book : OrderBook)
    (symbol : Symbol) : Except Fatal (Option (ℚ × TradeAction)) :=
  match binance_order_book.asks.head?, mb_order_book.bids.head?,
      mb_order_book.asks.head?, binance_order_book.bids.head? with
  | some binance_ask, some mb_bid, some mb_ask, some binance_bid =>
    let best_ask_binance := binance_ask.price
    let best_bid_mb := mb_bid.price
    let best_ask_mb := mb_ask.price
    let best_bid_binance := binance_bid.price
    if best_bid_mb > best_ask_binance then
      match get_mb_fee_rate best_bid_mb mb_bid.qty with
      | none => .error Fatal.feeTierGap
      | some mb_rate =>
        let costless_profit := best_bid_mb - best_ask_binance
        let binance_cost := best_ask_binance * binance_ask.qty * BINANCE_FEE_RATE
        let mb_cost := best_bid_mb * mb_bid.qty * mb_rate
        let costs := -binance_cost - mb_cost
        let profit := costless_profit + costs
        if profit ≥ 0 then
          .ok (some (profit, TradeAction.ShortMb best_ask_binance best_bid_mb
            (min binance_ask.qty mb_bid.qty) symbol costs))
        else
          .ok none
    else if best_bid_binance > best_ask_mb then
      match get_mb_fee_rate best_ask_mb mb_ask.qty with
      | none => .error Fatal.feeTierGap
      | some mb_rate =>
        let costless_profit := best_bid_binance - best_ask_mb
        let binance_cost := best_bid_binance * binance_bid.qty * BINANCE_FEE_RATE
        let mb_cost := best_ask_mb * mb_ask.qty * mb_rate
        let costs := -binance_cost - mb_cost
        let profit := costless_profit + costs
        if profit ≥ 0 then
          .ok (some (profit, TradeAction.ShortBinance best_ask_mb
            best_bid_binance (min binance_bid.qty mb_ask.qty) symbol costs))
        else
          .ok none
    else
      .ok none
  | _, _, _, _ => .ok none

/-- The balance map: total function since every reachable HashMap in the
program holds all four currency keys. -/
def Ledger : Type := Currency → ℚ

/-- HashMap::insert on a total-function ledger. -/
def Ledger.insert (m : Ledger) (c : Currency) (v : ℚ) : Ledger :=
  fun x => if x = c then v else m x

/-- get_default_balance from src/main.rs. -/
def get_default_balance : Ledger := fun c =>
  match c with
  | .BRL => 50000
  | .BTC => 0
  | .ETH => 0
  | .USDT => 0

/-- Opaque transport error (reqwest::Error in the source). -/
inductive Error where
  | transport
deriving DecidableEq, Repr

/-- short_binance from src/main.rs: sleeps one second, then returns Ok(()). -/
def short_binance (symbol : Symbol) (qty : ℚ) (price : ℚ) : Except Error Unit :=
  .ok ()

/-- long_binance from src/main.rs: sleeps one second, then returns Ok(()). -/
def long_binance (symbol : Symbol) (qty : ℚ) (price : ℚ) : Except Error Unit :=
  .ok ()

/-- short_mb from src/main.rs: sleeps one second, then returns Ok(()). -/
def short_mb (symbol : Symbol) (qty : ℚ) (price : ℚ) : Except Error Unit :=
  .ok ()

/-- long_mb from src/main.rs: sleeps one second, then returns Ok(()). -/
def long_mb (symbol : Symbol) (qty : ℚ) (price : ℚ) : Except Error Unit :=
  .ok ()

/-- take_trade_action from src/main.rs, parameterized over the four
leg-execution functions so that the propagation of leg errors through the ?
operators is visible in the type. take_trade_action below instantiates this
with the four source legs. Each ? on an .await result is an Except.bind; the
settlement match on the symbol follows the source arm by arm. -/
def takeTradeActionWith (sb : Symbol → ℚ → ℚ → Except Error Unit)
    (lb : Symbol → ℚ → ℚ → Except Error Unit)
    (smb : Symbol → ℚ → ℚ → Except Error Unit)
    (lmb : Symbol → ℚ → ℚ → Except Error Unit)
    (action : TradeAction) (current_balance : Ledger) : Except Error Ledger :=
  let legs : Except Error (ℚ × ℚ × ℚ × Symbol × ℚ) :=
    match action with
    | .ShortBinance ask_price bid_price qty symbol costs =>
      Except.bind (sb symbol qty bid_price) (fun _ =>
        Except.bind (lmb symbol qty ask_price) (fun _ =>
          Except.ok (ask_price, bid_price, qty, symbol, costs)))
    | .ShortMb ask_price bid_price qty symbol costs =>
      Except.bind (smb symbol qty bid_price) (fun _ =>
        Except.bind (lb symbol qty ask_price) (fun _ =>
          Except.ok (ask_price, bid_price, qty, symbol, costs)))
  Except.bind legs (fun r =>
    let (ask_price, _bid_price, qty, symbol, costs) := r
    match symbol with
    | .BTCBRL =>
      let balance_brl := current_balance Currency.BRL
      let balance_btc := current_balance Currency.BTC
      let balance_brl := balance_brl - (qty * ask_price) - costs
      let balance_btc := balance_btc + qty
      Except.ok ((current_balance.insert Currency.BRL balance_brl).insert
        Currency.BTC balance_btc)
    | .USDTBRL =>
      let balance_brl := current_balance Currency.BRL
      let balance_usdt := current_balance Currency.USDT
      let balance_brl := balance_brl - (qty * ask_price) - costs
      let balance_usdt := balance_usdt + qty
      Except.ok ((current_balance.insert Currency.BRL balance_brl).insert
        Currency.USDT balance_usdt)
    | .ETHBRL =>
      let balance_brl := current_balance Currency.BRL
      let balance_eth := current_balance Currency.ETH
      let balance_brl := balance_brl - (qty * ask_price) - costs
      let balance_eth := balance_eth + qty
      Except.ok ((current_balance.insert Currency.BRL balance_brl).insert
        Currency.ETH balance_eth))

/-- take_trade_action from src/main.rs: takeTradeActionWith at the four
source leg functions. -/
def take_trade_action (action : TradeAction) (current_balance : Ledger) :
    Except Error Ledger :=
  takeTradeActionWith short_binance long_binance short_mb long_mb action
    current_balance

/-- The base currency delivered by a symbol, as fixed by the settlement match
arms of take_trade_action (BTCBRL credits BTC, USDTBRL credits USDT, ETHBRL
credits ETH). -/
def Symbol.base_currency : Symbol → Currency
  | .BTCBRL => .BTC
  | .USDTBRL => .USDT
  | .ETHBRL => .ETH


/-- C1: the fee-tier bands of get_mb_fee_rate are not contiguous: literal
thresholds typed as 10_000_00.0 and similar leave every notional in
(1000000, 200000000] unmatched by all arms, so the fatal fallthrough
(unreachable in the source) is reached, for example at price 2000000 and
quantity 1, both strictly positive. -/
theorem C1_fee_tier_gap_reached :
    0 < (2000000 : ℚ) ∧ 0 < (1 : ℚ) ∧ get_mb_fee_rate 2000000 1 = none := by
  refine ⟨by norm_num, by norm_num, ?_⟩
  simp only [get_mb_fee_rate]
  norm_num


/-- C2 counterexample: settling the instruction of the claim against the
default ledger leaves BRL at 49901, not the claimed 49899: the code computes
balance - qty * ask_price - costs and costs is -1, so the fee is added back
rather than deducted. -/
theorem C2_counterexample :
    (take_trade_action (TradeAction.ShortMb 100 110 1 Symbol.BTCBRL (-1))
        get_default_balance).map (fun l => (l Currency.BRL, l Currency.BTC))
      = Except.ok (49901, 1) ∧ ((49901 : ℚ) ≠ 49899) := by
  constructor
  · simp only [take_trade_action, takeTradeActionWith, short_mb, long_binance,
      Except.bind, Except.map, Ledger.insert, get_default_balance]
    norm_num
    decide
  · norm_num

/-- C2 amended: applying the ledger settlement of the instruction with
ask_price 100, bid_price 110, quantity 1, symbol BTC-BRL and total cost -1 to
the ledger with BRL 50000 and BTC 0 yields BRL 49901 and BTC 1 (all other
currencies 0 as before): the new BRL balance is 50000 - 1 * 100 - (-1). -/
theorem C2_settlement :
    (take_trade_action (TradeAction.ShortMb 100 110 1 Symbol.BTCBRL (-1))
        get_default_balance).map
      (fun l => (l Currency.BRL, l Currency.BTC, l Currency.ETH, l Currency.USDT))
      = Except.ok (49901, 1, 0, 0) := by
  simp only [take_trade_action, takeTradeActionWith, short_mb, long_binance,
    Except.bind, Except.map, Ledger.insert, get_default_balance]
  norm_num
  refine ⟨by decide, by decide, by decide⟩

/-- C4 counterexample: at a notional of exactly 500000 the secondary-venue
lookup returns 0.007, the rate of the lower-notional (more expensive)
adjacent tier, not the cheaper adjacent rate 0.006 that the upper-bound
exclusive convention of the claim would give. -/
theorem C4_counterexample :
    get_mb_fee_rate 500000 1 = some 0.007 ∧ (0.007 : ℚ) ≠ 0.006 := by
  constructor
  · simp only [get_mb_fee_rate]
    norm_num
  · norm_num

/-- C4 amended: the code treats tier upper bounds as inclusive, so a notional
exactly at the 500000 boundary takes the lower-notional and more expensive
adjacent rate 0.007; just above it the next band gives 0.006 up to 1000000
inclusive. The remaining sides of the literal boundaries fall into the fee
schedule gap: every notional in (1000000, 200000000] matches no arm, and
above 200000000 the rate is 0.0025. -/
theorem C4_boundary_bands (p q : ℚ) :
    (p * q ≤ 500000 → get_mb_fee_rate p q = some 0.007) ∧
    (500000 < p * q → p * q ≤ 1000000 → get_mb_fee_rate p q = some 0.006) ∧
    (1000000 < p * q → p * q ≤ 200000000 → get_mb_fee_rate p q = none) ∧
    (200000000 < p * q → get_mb_fee_rate p q = some 0.0025) := by
  simp only [get_mb_fee_rate]
  refine ⟨?_, ?_, ?_, ?_⟩
  · intro h
    rw [if_pos h]
  · intro h1 h2
    rw [if_neg (by linarith), if_pos ⟨h1, h2⟩]
  · intro h1 h2
    rw [if_neg (by linarith), if_neg (by rintro ⟨a, b⟩; linarith),
      if_neg (by rintro ⟨a, b⟩; linarith), if_neg (by rintro ⟨a, b⟩; linarith),
      if_neg (by rintro ⟨a, b⟩; linarith), if_neg (by rintro ⟨a, b⟩; linarith),
      if_neg (by linarith)]
  · intro h
    rw [if_neg (by linarith), if_neg (by rintro ⟨a, b⟩; linarith),
      if_neg (by rintro ⟨a, b⟩; linarith), if_neg (by rintro ⟨a, b⟩; linarith),
      if_neg (by rintro ⟨a, b⟩; linarith), if_neg (by rintro ⟨a, b⟩; linarith),
      if_pos h]

/-- C4 witness: both sides of the 500000 boundary, through the amended
theorem. -/
theorem C4_boundary_bands_witness :
    get_mb_fee_rate 500000 1 = some 0.007 ∧
    get_mb_fee_rate 500001 1 = some 0.006 := by
  constructor
  · exact (C4_boundary_bands 500000 1).1 (by norm_num)
  · exact (C4_boundary_bands 500001 1).2.1 (by norm_num) (by norm_num)

/-- C6: when the secondary best bid does not exceed the primary best ask and
the primary best bid does not exceed the secondary best ask, neither branch
of check_arbitrage triggers and it reports no opportunity. -/
theorem C6_no_crossing (bOB mOB : OrderBook) (s : Symbol)
    (ba mbid mask bbid : Data)
    (h1 : bOB.asks.head? = some ba) (h2 : mOB.bids.head? = some mbid)
    (h3 : mOB.asks.head? = some mask) (h4 : bOB.bids.head? = some bbid)
    (hA : mbid.price ≤ ba.price) (hB : bbid.price ≤ mask.price) :
    check_arbitrage bOB mOB s = .ok none := by
  simp only [check_arbitrage, h1, h2, h3, h4]
  rw [if_neg (not_lt.mpr hA), if_neg (not_lt.mpr hB)]

/-- C6 witness: identical one-level books on both venues cross in neither
direction. -/
theorem C6_no_crossing_witness :
    check_arbitrage ⟨[⟨1, 100⟩], [⟨1, 100⟩]⟩ ⟨[⟨1, 100⟩], [⟨1, 100⟩]⟩
      Symbol.BTCBRL = .ok none :=
  C6_no_crossing _ _ _ ⟨1, 100⟩ ⟨1, 100⟩ ⟨1, 100⟩ ⟨1, 100⟩ rfl rfl rfl rfl
    (le_refl _) (le_refl _)

/-- C10: each of the four leg stubs returns Ok for every input, and
consequently take_trade_action succeeds on every action and ledger: the
leg-failure path of the program is unreachable. -/
theorem C10_legs_never_fail :
    (∀ (s : Symbol) (q p : ℚ),
      short_binance s q p = .ok () ∧ long_binance s q p = .ok () ∧
      short_mb s q p = .ok () ∧ long_mb s q p = .ok ()) ∧
    ∀ (a : TradeAction) (bal : Ledger),
      ∃ l, take_trade_action a bal = .ok l := by
  refine ⟨fun s q p => ⟨rfl, rfl, rfl, rfl⟩, fun a bal => ?_⟩
  cases a with
  | ShortBinance ask bid q s c => cases s <;> exact ⟨_, rfl⟩
  | ShortMb ask bid q s c => cases s <;> exact ⟨_, rfl⟩


/-- C5: the two ? operators in take_trade_action propagate a failing leg: for
any leg implementations, if the leg consulted for the action fails with an
error, takeTradeActionWith (of which take_trade_action is the instance at the
four source legs) returns that error and produces no ledger, so the caller
keeps its unchanged input ledger. -/
theorem C5_leg_failure_aborts
    (sb lb smb lmb : Symbol → ℚ → ℚ → Except Error Unit)
    (ask bid q : ℚ) (s : Symbol) (c : ℚ) (bal : Ledger) (e : Error) :
    (sb s q bid = .error e →
      takeTradeActionWith sb lb smb lmb (.ShortBinance ask bid q s c) bal
        = .error e) ∧
    (sb s q bid = .ok () → lmb s q ask = .error e →
      takeTradeActionWith sb lb smb lmb (.ShortBinance ask bid q s c) bal
        = .error e) ∧
    (smb s q bid = .error e →
      takeTradeActionWith sb lb smb lmb (.ShortMb ask bid q s c) bal
        = .error e) ∧
    (smb s q bid = .ok () → lb s q ask = .error e →
      takeTradeActionWith sb lb smb lmb (.ShortMb ask bid q s c) bal
        = .error e) := by
  refine ⟨fun h1 => ?_, fun h1 h2 => ?_, fun h1 => ?_, fun h1 h2 => ?_⟩ <;>
    simp [takeTradeActionWith, Except.bind, *]

/-- C5 witness: a failing short leg on the primary venue aborts the trade
with its error and no settled ledger. -/
theorem C5_leg_failure_aborts_witness :
    takeTradeActionWith (fun _ _ _ => Except.error Error.transport) long_binance
      short_mb long_mb (.ShortBinance 100 110 1 Symbol.BTCBRL (-1))
      get_default_balance = .error Error.transport :=
  (C5_leg_failure_aborts (fun _ _ _ => Except.error Error.transport)
    long_binance short_mb long_mb 100 110 1 Symbol.BTCBRL (-1)
    get_default_balance Error.transport).1 rfl

/-- C9: settlement only rewrites the BRL entry and the entry of the base
currency of the instruction symbol; every other currency keeps its input
balance. -/
theorem C9_frame (a : TradeAction) (bal : Ledger) (l : Ledger)
    (h : take_trade_action a bal = .ok l) (c : Currency)
    (hq : c ≠ Currency.BRL) (hb : c ≠ a.symbol.base_currency) :
    l c = bal c := by
  cases a with
  | ShortBinance ask bid q s cst =>
    cases s <;>
      (simp only [take_trade_action, takeTradeActionWith, short_binance,
        long_mb, Except.bind, Except.ok.injEq, TradeAction.symbol,
        Symbol.base_currency] at h hb;
       subst h;
       simp [Ledger.insert, hq, hb])
  | ShortMb ask bid q s cst =>
    cases s <;>
      (simp only [take_trade_action, takeTradeActionWith, short_mb,
        long_binance, Except.bind, Except.ok.injEq, TradeAction.symbol,
        Symbol.base_currency] at h hb;
       subst h;
       simp [Ledger.insert, hq, hb])

/-- C9 witness: after settling a BTC-BRL instruction against the default
ledger, the ETH entry is unchanged. -/
theorem C9_frame_witness :
    ((get_default_balance.insert Currency.BRL
        (get_default_balance Currency.BRL - 1 * 100 - (-1))).insert
        Currency.BTC (get_default_balance Currency.BTC + 1)) Currency.ETH
      = get_default_balance Currency.ETH :=
  C9_frame (.ShortMb 100 110 1 .BTCBRL (-1)) get_default_balance _ rfl
    Currency.ETH (by decide) (by decide)


/-- C7: when a branch of check_arbitrage is entered (the first branch on
secondary bid above primary ask, or the second on primary bid above secondary
ask with the first condition false) and the net profit, raw spread plus the
negative total fee cost, is at least zero, the evaluator returns that profit
together with the corresponding instruction; profit exactly zero is
included. -/
theorem C7_profit_nonneg_accepted (bOB mOB : OrderBook) (s : Symbol)
    (ba mbid mask bbid : Data)
    (h1 : bOB.asks.head? = some ba) (h2 : mOB.bids.head? = some mbid)
    (h3 : mOB.asks.head? = some mask) (h4 : bOB.bids.head? = some bbid) :
    (∀ r, get_mb_fee_rate mbid.price mbid.qty = some r →
      mbid.price > ba.price →
      mbid.price - ba.price +
          (-(ba.price * ba.qty * BINANCE_FEE_RATE) - mbid.price * mbid.qty * r)
        ≥ 0 →
      check_arbitrage bOB mOB s = .ok (some
        (mbid.price - ba.price +
          (-(ba.price * ba.qty * BINANCE_FEE_RATE) - mbid.price * mbid.qty * r),
        TradeAction.ShortMb ba.price mbid.price (min ba.qty mbid.qty) s
          (-(ba.price * ba.qty * BINANCE_FEE_RATE)
            - mbid.price * mbid.qty * r)))) ∧
    (∀ r, get_mb_fee_rate mask.price mask.qty = some r →
      ¬(mbid.price > ba.price) → bbid.price > mask.price →
      bbid.price - mask.price +
          (-(bbid.price * bbid.qty * BINANCE_FEE_RATE)
            - mask.price * mask.qty * r) ≥ 0 →
      check_arbitrage bOB mOB s = .ok (some
        (bbid.price - mask.price +
          (-(bbid.price * bbid.qty * BINANCE_FEE_RATE)
            - mask.price * mask.qty * r),
        TradeAction.ShortBinance mask.price bbid.price (min bbid.qty mask.qty)
          s (-(bbid.price * bbid.qty * BINANCE_FEE_RATE)
            - mask.price * mask.qty * r)))) := by
  constructor
  · intro r hr htrig hprof
    simp only [check_arbitrage, h1, h2, h3, h4, hr]
    rw [if_pos htrig, if_pos hprof]
  · intro r hr hnotrig htrig hprof
    simp only [check_arbitrage, h1, h2, h3, h4, hr]
    rw [if_neg hnotrig, if_pos htrig, if_pos hprof]

/-- C7 witness: books constructed so the raw spread exactly equals the total
fee cost; the evaluator returns profit zero with the instruction rather than
no opportunity. -/
theorem C7_profit_nonneg_accepted_witness :
    check_arbitrage ⟨[⟨1, 1⟩], [⟨1, 100⟩]⟩
      ⟨[⟨1, 100100/993⟩], [⟨1, 10000⟩]⟩ Symbol.BTCBRL
      = .ok (some (0, TradeAction.ShortMb 100 (100100/993) 1 Symbol.BTCBRL
        (-800/993))) := by
  have h := (C7_profit_nonneg_accepted ⟨[⟨1, 1⟩], [⟨1, 100⟩]⟩
      ⟨[⟨1, 100100/993⟩], [⟨1, 10000⟩]⟩ Symbol.BTCBRL ⟨1, 100⟩
      ⟨1, 100100/993⟩ ⟨1, 10000⟩ ⟨1, 1⟩ rfl rfl rfl rfl).1 0.007
      (by simp only [get_mb_fee_rate]; norm_num)
      (by norm_num) (by norm_num [BINANCE_FEE_RATE])
  refine h.trans ?_
  simp only [Except.ok.injEq, Option.some.injEq, Prod.mk.injEq,
    TradeAction.ShortMb.injEq]
  norm_num [BINANCE_FEE_RATE]

/-- C8: every instruction returned by check_arbitrage carries as quantity the
minimum of the consumed bid level quantity and the consumed ask level
quantity: the primary ask against the secondary bid for a ShortMb
instruction, the secondary ask against the primary bid for a ShortBinance
instruction. -/
theorem C8_qty_clamped (bOB mOB : OrderBook) (s : Symbol)
    (ba mbid mask bbid : Data)
    (h1 : bOB.asks.head? = some ba) (h2 : mOB.bids.head? = some mbid)
    (h3 : mOB.asks.head? = some mask) (h4 : bOB.bids.head? = some bbid)
    (p : ℚ) (a : TradeAction)
    (h : check_arbitrage bOB mOB s = .ok (some (p, a))) :
    a.qty = match a with
      | .ShortMb _ _ _ _ _ => min ba.qty mbid.qty
      | .ShortBinance _ _ _ _ _ => min bbid.qty mask.qty := by
  simp only [check_arbitrage, h1, h2, h3, h4] at h
  split at h
  · split at h
    · exact absurd h (by simp)
    · split at h
      · simp only [Except.ok.injEq, Option.some.injEq, Prod.mk.injEq] at h
        obtain ⟨hp, ha⟩ := h
        subst ha
        rfl
      · simp at h
  · split at h
    · split at h
      · exact absurd h (by simp)
      · split at h
        · simp only [Except.ok.injEq, Option.some.injEq, Prod.mk.injEq] at h
          obtain ⟨hp, ha⟩ := h
          subst ha
          rfl
        · simp at h
    · simp at h

/-- C8 witness: a triggering secondary bid of quantity 2 against a primary
ask of quantity one half yields an instruction of quantity one half. -/
theorem C8_qty_clamped_witness :
    TradeAction.qty (TradeAction.ShortMb 100 200 (1/2) Symbol.BTCBRL (-57/20))
      = min ((1 : ℚ)/2) 2 :=
  C8_qty_clamped ⟨[⟨1, 1⟩], [⟨(1 : ℚ)/2, 100⟩]⟩ ⟨[⟨2, 200⟩], [⟨1, 10000⟩]⟩
    Symbol.BTCBRL ⟨(1 : ℚ)/2, 100⟩ ⟨2, 200⟩ ⟨1, 10000⟩ ⟨1, 1⟩ rfl rfl rfl rfl
    (1943/20) (TradeAction.ShortMb 100 200 (1/2) Symbol.BTCBRL (-57/20))
    (by simp only [check_arbitrage, List.head?, get_mb_fee_rate]
        norm_num [BINANCE_FEE_RATE])

/-- C3 counterexample: with a primary ask of quantity 2 and a secondary bid of
quantity 1, the clamped quantity is 1, but the returned total cost is
-8/5 = -1.6, computed from each leg at its own book quantity, not the
-(100 * 1 * 0.001 + 200 * 1 * 0.007) = -1.5 that the claim's clamped-quantity
formula demands. -/
theorem C3_counterexample :
    check_arbitrage ⟨[⟨1, 50⟩], [⟨2, 100⟩]⟩ ⟨[⟨1, 200⟩], [⟨1, 300⟩]⟩
        Symbol.BTCBRL
      = .ok (some (492/5, TradeAction.ShortMb 100 200 1 Symbol.BTCBRL (-8/5)))
      ∧ (-8/5 : ℚ) ≠ -(100 * 1 * BINANCE_FEE_RATE + 200 * 1 * 0.007) := by
  constructor
  · simp only [check_arbitrage, List.head?, get_mb_fee_rate]
    norm_num [BINANCE_FEE_RATE]
  · norm_num [BINANCE_FEE_RATE]

/-- C3 amended: whenever check_arbitrage returns an instruction, each leg fee
cost is that leg's price times that leg's own top-of-book quantity times the
fee rate of that leg's venue at that price and quantity, and the total cost
is the negative sum of the two leg fee costs; the clamped minimum quantity
appears only in the instruction quantity, not in the fee computation. -/
theorem C3_leg_fee_costs (bOB mOB : OrderBook) (s : Symbol)
    (ba mbid mask bbid : Data)
    (h1 : bOB.asks.head? = some ba) (h2 : mOB.bids.head? = some mbid)
    (h3 : mOB.asks.head? = some mask) (h4 : bOB.bids.head? = some bbid)
    (p : ℚ) (a : TradeAction)
    (h : check_arbitrage bOB mOB s = .ok (some (p, a))) :
    some a.costs = match a with
      | .ShortMb _ _ _ _ _ =>
        (get_mb_fee_rate mbid.price mbid.qty).map
          (fun r => -(ba.price * ba.qty * BINANCE_FEE_RATE)
            - mbid.price * mbid.qty * r)
      | .ShortBinance _ _ _ _ _ =>
        (get_mb_fee_rate mask.price mask.qty).map
          (fun r => -(bbid.price * bbid.qty * BINANCE_FEE_RATE)
            - mask.price * mask.qty * r) := by
  simp only [check_arbitrage, h1, h2, h3, h4] at h
  split at h
  · split at h
    · exact absurd h (by simp)
    · rename_i r hr
      split at h
      · simp only [Except.ok.injEq, Option.some.injEq, Prod.mk.injEq] at h
        obtain ⟨hp, ha⟩ := h
        subst ha
        rw [hr]
        rfl
      · simp at h
  · split at h
    · split at h
      · exact absurd h (by simp)
      · rename_i r hr
        split at h
        · simp only [Except.ok.injEq, Option.some.injEq, Prod.mk.injEq] at h
          obtain ⟨hp, ha⟩ := h
          subst ha
          rw [hr]
          rfl
        · simp at h
    · simp at h

/-- C3 witness: at the counterexample books the returned cost follows the
per-leg own-quantity formula. -/
theorem C3_leg_fee_costs_witness :
    some (TradeAction.costs (TradeAction.ShortMb 100 200 1 Symbol.BTCBRL
        (-8/5)))
      = (get_mb_fee_rate 200 1).map
          (fun r => -(100 * 2 * BINANCE_FEE_RATE) - 200 * 1 * r) :=
  C3_leg_fee_costs ⟨[⟨1, 50⟩], [⟨2, 100⟩]⟩ ⟨[⟨1, 200⟩], [⟨1, 300⟩]⟩
    Symbol.BTCBRL ⟨2, 100⟩ ⟨1, 200⟩ ⟨1, 300⟩ ⟨1, 50⟩ rfl rfl rfl rfl (492/5)
    (TradeAction.ShortMb 100 200 1 Symbol.BTCBRL (-8/5))
    (by simp only [check_arbitrage, List.head?, get_mb_fee_rate]
        norm_num [BINANCE_FEE_RATE])

end ArbBot
